import Mathlib

/-!
Verification development for the chirp voice-dictation pipeline.

The definitions below are a shallow embedding of the Python sources:
  * src/utils.py            (is_bad_transcription)
  * src/apps.py             (App session state machine, StreamingResultHandler)
  * src/input_manager.py    (KeyChord chords and tap sequences, InputManager.on_input_event)
  * src/audio_manager.py    (capture loop, VAD termination, streaming slicing,
                             non-streaming disposition)
  * src/application_controller.py (session bookkeeping, continuous-mode restart)

Machine reals (Python floats) are modelled with exact rationals; Python dict /
set containers are modelled with association lists / duplicate-free lists;
uuid4 session-id generation is modelled by a monotone counter, so freshness of
a new id is an explicit invariant.  Side effects (event-bus emissions, queue
pushes, output-sink writes) are returned as explicit effect lists.

The enums module of the repository (AppState, RecordingMode, InputEvent) is not
present under src/; its constructors are reproduced exactly as the rest of the
sources use them.
-/

namespace Chirp

/-- AppState from enums.py, as used throughout apps.py. -/
inductive AppState
  | IDLE
  | RECORDING
  | TRANSCRIBING
  | INFERENCING
  deriving DecidableEq, Repr

/-- RecordingMode from enums.py, as used in apps.py / application_controller.py. -/
inductive RecordingMode
  | PRESS_TO_TOGGLE
  | CONTINUOUS
  | VOICE_ACTIVITY_DETECTION
  | HOLD_TO_RECORD
  deriving DecidableEq, Repr

/-- InputEvent from enums.py, as used in input_manager.py. -/
inductive InputEvent
  | KEY_PRESS
  | KEY_RELEASE
  deriving DecidableEq, Repr

/-! ### Python string helpers (utils.py uses str.strip / str.lower / str.split) -/

/-- Python whitespace characters recognised by str.strip() / str.split(). -/
def pyIsSpace (c : Char) : Bool :=
  c == ' ' || c == '\t' || c == '\n' || c == '\r' || c == '\x0b' || c == '\x0c'

/-- Python str.strip(): drop whitespace from both ends. -/
def pyStrip (s : List Char) : List Char :=
  ((s.dropWhile pyIsSpace).reverse.dropWhile pyIsSpace).reverse

/-- Python str.lower(), character by character. -/
def pyLower (s : List Char) : List Char :=
  s.map Char.toLower

/-- Helper for pySplit: accumulate the current word (in reverse). -/
def pySplitAux : List Char → List Char → List (List Char)
  | [], acc => if acc = [] then [] else [acc.reverse]
  | c :: cs, acc =>
    if pyIsSpace c then
      if acc = [] then pySplitAux cs [] else acc.reverse :: pySplitAux cs []
    else pySplitAux cs (c :: acc)

/-- Python str.split() with no argument: split on whitespace runs, no empty words. -/
def pySplit (s : List Char) : List (List Char) :=
  pySplitAux s []

/-! ### is_bad_transcription (src/utils.py lines 246-279) -/

/-- The punctuation set of the check `all(char in '.!?,;' ...)`. -/
def punctChars : List Char := ['.', '!', '?', ',', ';']

/-- filler_words = {'um', 'uh', 'so'}. -/
def fillerWords : List (List Char) := [['u','m'], ['u','h'], ['s','o']]

/-- cleaned_text = transcription.strip().lower() (strip and lower commute on
the modelled character set). -/
def cleanedText (s : String) : List Char :=
  pyStrip (pyLower s.data)

/-- words = cleaned_text.split(). -/
def splitWords (s : String) : List (List Char) :=
  pySplit (cleanedText s)

/-- Number of words of the transcription that lie in filler_words
(`sum(1 for word in words if word in filler_words)`). -/
def fillerCount (s : String) : ℕ :=
  (splitWords s).countP (fun w => decide (w ∈ fillerWords))

/-- is_bad_transcription from src/utils.py: returns (flag, reason).  Float
ratio comparisons (`< 0.4`, `> 0.5`) are modelled with exact rationals. -/
def is_bad_transcription (transcription : String) : Bool × Option String :=
  if cleanedText transcription = [] then
    (true, some "Transcription is empty")
  else if ∀ c ∈ cleanedText transcription, c ∈ punctChars then
    (true, some "Transcription is just punctuation")
  else if 3 ≤ (splitWords transcription).length ∧
      (((splitWords transcription).dedup.length : ℚ) / (splitWords transcription).length < 0.4) then
    (true, some "Transcription is just filler words")
  else if 0 < (splitWords transcription).length ∧
      ((fillerCount transcription : ℚ) / (splitWords transcription).length > 0.5) then
    (true, some "Transcription is just filler words")
  else
    (false, none)

/-- The low-quality judgment exactly as the claim states it: empty after
trimming, solely punctuation, unique-word ratio below 0.4 among at least 3
words, or filler words exceeding half of the total words. -/
def specBadTranscription (transcription : String) : Prop :=
  cleanedText transcription = [] ∨
  (∀ c ∈ cleanedText transcription, c ∈ punctChars) ∨
  (3 ≤ (splitWords transcription).length ∧
    (((splitWords transcription).dedup.length : ℚ) / (splitWords transcription).length < 0.4)) ∨
  (0 < (splitWords transcription).length ∧
    ((fillerCount transcription : ℚ) / (splitWords transcription).length > 0.5))

/-- Bridge: the exact-rational rendering of the source's ratio test
u / n < 0.4 is the integer comparison 5 u < 2 n (for positive n). -/
lemma ratio_lt_04_iff (u n : ℕ) (hn : 0 < n) :
    ((u : ℚ) / n < 0.4) ↔ 5 * u < 2 * n := by
  have hn' : (0 : ℚ) < n := by exact_mod_cast hn
  rw [div_lt_iff₀ hn', show (0.4 : ℚ) = 2/5 by norm_num]
  constructor <;> intro h
  · have h' : ((5 * u : ℕ) : ℚ) < ((2 * n : ℕ) : ℚ) := by push_cast; nlinarith
    exact_mod_cast h'
  · have h' : ((5 * u : ℕ) : ℚ) < ((2 * n : ℕ) : ℚ) := by exact_mod_cast h
    push_cast at h'; nlinarith

/-- Bridge: f / n > 0.5 is the integer comparison n < 2 f (for positive n). -/
lemma ratio_gt_05_iff (f n : ℕ) (hn : 0 < n) :
    ((f : ℚ) / n > 0.5) ↔ n < 2 * f := by
  have hn' : (0 : ℚ) < n := by exact_mod_cast hn
  rw [gt_iff_lt, lt_div_iff₀ hn', show (0.5 : ℚ) = 1/2 by norm_num]
  constructor <;> intro h
  · have h' : ((n : ℕ) : ℚ) < ((2 * f : ℕ) : ℚ) := by push_cast; nlinarith
    exact_mod_cast h'
  · have h' : ((n : ℕ) : ℚ) < ((2 * f : ℕ) : ℚ) := by exact_mod_cast h
    push_cast at h'; nlinarith

/-- The flag component of is_bad_transcription is the spec disjunction. -/
lemma is_bad_fst_iff (s : String) :
    (is_bad_transcription s).1 = true ↔ specBadTranscription s := by
  unfold is_bad_transcription specBadTranscription
  split_ifs with h1 h2 h3 h4
  · exact iff_of_true rfl (Or.inl h1)
  · exact iff_of_true rfl (Or.inr (Or.inl h2))
  · exact iff_of_true rfl (Or.inr (Or.inr (Or.inl h3)))
  · exact iff_of_true rfl (Or.inr (Or.inr (Or.inr h4)))
  · refine iff_of_false (by simp) ?_
    rintro (h | h | h | h)
    exacts [h1 h, h2 h, h3 h, h4 h]

/-- The spec disjunction with the ratio tests cross-multiplied (decidable). -/
lemma specBad_nat_iff (s : String) :
    specBadTranscription s ↔
      cleanedText s = [] ∨
      (∀ c ∈ cleanedText s, c ∈ punctChars) ∨
      (3 ≤ (splitWords s).length ∧
        5 * (splitWords s).dedup.length < 2 * (splitWords s).length) ∨
      (0 < (splitWords s).length ∧ (splitWords s).length < 2 * fillerCount s) := by
  unfold specBadTranscription
  constructor <;> intro h
  · rcases h with h | h | ⟨h1, h2⟩ | ⟨h1, h2⟩
    · exact Or.inl h
    · exact Or.inr (Or.inl h)
    · exact Or.inr (Or.inr (Or.inl ⟨h1, (ratio_lt_04_iff _ _ (by omega)).mp h2⟩))
    · exact Or.inr (Or.inr (Or.inr ⟨h1, (ratio_gt_05_iff _ _ h1).mp h2⟩))
  · rcases h with h | h | ⟨h1, h2⟩ | ⟨h1, h2⟩
    · exact Or.inl h
    · exact Or.inr (Or.inl h)
    · exact Or.inr (Or.inr (Or.inl ⟨h1, (ratio_lt_04_iff _ _ (by omega)).mpr h2⟩))
    · exact Or.inr (Or.inr (Or.inr ⟨h1, (ratio_gt_05_iff _ _ h1).mpr h2⟩))

/-- "..." is flagged bad (punctuation only). -/
lemma bad_dots : (is_bad_transcription "...").1 = true :=
  (is_bad_fst_iff _).mpr ((specBad_nat_iff _).mpr (by decide))

/-- "um um um so" is flagged bad (filler ratio). -/
lemma bad_um : (is_bad_transcription "um um um so").1 = true :=
  (is_bad_fst_iff _).mpr ((specBad_nat_iff _).mpr (by decide))

/-- "please schedule the meeting" is not flagged. -/
lemma good_please : (is_bad_transcription "please schedule the meeting").1 = false :=
  Bool.eq_false_iff.mpr (fun h => by
    have := (specBad_nat_iff _).mp ((is_bad_fst_iff _).mp h)
    revert this
    decide)

/-- Claim C9: the low-quality transcription judgment flags a string as bad iff
it is empty after trimming, solely punctuation, has unique-word ratio below 0.4
among at least 3 words, or has filler words exceeding half of its total words;
"..." and "um um um so" are flagged bad, "please schedule the meeting" is not. -/
theorem C9_is_bad_transcription_characterisation :
    (∀ s : String, (is_bad_transcription s).1 = true ↔ specBadTranscription s) ∧
    (is_bad_transcription "...").1 = true ∧
    (is_bad_transcription "um um um so").1 = true ∧
    (is_bad_transcription "please schedule the meeting").1 = false :=
  ⟨is_bad_fst_iff, bad_dots, bad_um, good_please⟩

/-! ### KeyChord: normal chords (src/input_manager.py lines 256-355, 458-479) -/

/-- One element of a chord's key set: a single KeyCode or a frozenset of
interchangeable KeyCodes (e.g. either physical Ctrl).  Key codes are ℕ. -/
inductive KeyElem
  | single (k : ℕ)
  | group (ks : List ℕ)
  deriving DecidableEq, Repr

/-- A normal (non-tap-sequence) KeyChord: its required keys and the mutable
pressed_keys set (a duplicate-free list models the Python set). -/
structure KeyChord where
  keys : List KeyElem
  pressed_keys : List ℕ
  deriving DecidableEq, Repr

/-- KeyChord.is_valid_chord: all keys in the chord are currently pressed; a
frozenset element needs at least one of its members pressed. -/
def is_valid_chord (c : KeyChord) : Bool :=
  c.keys.all fun e =>
    match e with
    | KeyElem.single k => c.pressed_keys.contains k
    | KeyElem.group ks => ks.any fun k => c.pressed_keys.contains k

/-- The non-tap-sequence branch of KeyChord.update: add/discard the key on the
pressed set (set.add / set.discard). -/
def chordUpdate (c : KeyChord) (key : ℕ) (ev : InputEvent) : KeyChord :=
  match ev with
  | InputEvent.KEY_PRESS => { c with pressed_keys := c.pressed_keys.insert key }
  | InputEvent.KEY_RELEASE => { c with pressed_keys := c.pressed_keys.erase key }

/-- The activation events InputManager.on_input_event emits for one chord. -/
inductive ChordEvent
  | press
  | release
  deriving DecidableEq, Repr

/-- InputManager.on_input_event, restricted to one normal chord: record
was_active, update, emit "press" when the updated chord is valid, else emit
"release" when activation was just lost. -/
def onChordInputEvent (c : KeyChord) (key : ℕ) (ev : InputEvent) :
    KeyChord × List ChordEvent :=
  let was_active := is_valid_chord c
  let c' := chordUpdate c key ev
  if is_valid_chord c' then (c', [ChordEvent.press])
  else if was_active then (c', [ChordEvent.release])
  else (c', [])

/-- Feed a whole event sequence to one chord, collecting emitted events. -/
def runChord (c : KeyChord) : List (ℕ × InputEvent) → KeyChord × List ChordEvent
  | [] => (c, [])
  | e :: es =>
    let r := onChordInputEvent c e.1 e.2
    let rest := runChord r.1 es
    (rest.1, r.2 ++ rest.2)

/-- Spec-side set of currently pressed keys: the event sequence folded over a
finite set. -/
def specPressedSet (events : List (ℕ × InputEvent)) : Finset ℕ :=
  events.foldl
    (fun s e =>
      match e.2 with
      | InputEvent.KEY_PRESS => insert e.1 s
      | InputEvent.KEY_RELEASE => s.erase e.1)
    ∅

/-- Spec-side activation predicate: every required key-group currently has at
least one member pressed. -/
def specChordSatisfied (keys : List KeyElem) (pressed : Finset ℕ) : Prop :=
  ∀ e ∈ keys, match e with
    | KeyElem.single k => k ∈ pressed
    | KeyElem.group ks => ∃ k ∈ ks, k ∈ pressed

lemma onChordInputEvent_fst (c : KeyChord) (key : ℕ) (ev : InputEvent) :
    (onChordInputEvent c key ev).1 = chordUpdate c key ev := by
  simp only [onChordInputEvent]
  split_ifs <;> rfl

lemma onChordInputEvent_snd (c : KeyChord) (key : ℕ) (ev : InputEvent) :
    (onChordInputEvent c key ev).2 =
      if is_valid_chord (chordUpdate c key ev) then [ChordEvent.press]
      else if is_valid_chord c then [ChordEvent.release]
      else [] := by
  simp only [onChordInputEvent]
  split_ifs <;> rfl

lemma runChord_keys (c : KeyChord) (events : List (ℕ × InputEvent)) :
    (runChord c events).1.keys = c.keys := by
  induction events generalizing c with
  | nil => rfl
  | cons e es ih =>
    simp only [runChord, onChordInputEvent_fst]
    rw [ih]
    cases e.2 <;> rfl

lemma chordUpdate_nodup (c : KeyChord) (key : ℕ) (ev : InputEvent)
    (h : c.pressed_keys.Nodup) : (chordUpdate c key ev).pressed_keys.Nodup := by
  cases ev with
  | KEY_PRESS => exact h.insert
  | KEY_RELEASE => exact h.erase key

lemma runChord_nodup (c : KeyChord) (events : List (ℕ × InputEvent))
    (h : c.pressed_keys.Nodup) : (runChord c events).1.pressed_keys.Nodup := by
  induction events generalizing c with
  | nil => exact h
  | cons e es ih =>
    simp only [runChord, onChordInputEvent_fst]
    exact ih _ (chordUpdate_nodup c e.1 e.2 h)

/-- The chord's pressed-keys list agrees pointwise with the spec-side pressed
set, for runs started from any agreeing pair of states. -/
lemma runChord_mem_aux (events : List (ℕ × InputEvent)) (c : KeyChord)
    (s : Finset ℕ) (hnd : c.pressed_keys.Nodup)
    (hagree : ∀ k, k ∈ c.pressed_keys ↔ k ∈ s) :
    ∀ k, k ∈ (runChord c events).1.pressed_keys ↔
      k ∈ events.foldl
        (fun t e =>
          match e.2 with
          | InputEvent.KEY_PRESS => insert e.1 t
          | InputEvent.KEY_RELEASE => t.erase e.1) s := by
  induction events generalizing c s with
  | nil => simpa [runChord] using hagree
  | cons e es ih =>
    intro k
    simp only [runChord, onChordInputEvent_fst, List.foldl_cons]
    refine ih (chordUpdate c e.1 e.2) _ (chordUpdate_nodup c e.1 e.2 hnd) ?_ k
    intro k'
    cases hev : e.2 with
    | KEY_PRESS =>
      simp only [chordUpdate, List.mem_insert_iff, Finset.mem_insert]
      rw [hagree k']
    | KEY_RELEASE =>
      simp only [chordUpdate, hnd.mem_erase_iff, Finset.mem_erase]
      rw [hagree k']

lemma is_valid_chord_iff (c : KeyChord) (s : Finset ℕ)
    (hagree : ∀ k, k ∈ c.pressed_keys ↔ k ∈ s) :
    is_valid_chord c = true ↔ specChordSatisfied c.keys s := by
  unfold is_valid_chord specChordSatisfied
  rw [List.all_eq_true]
  refine forall_congr' fun e => imp_congr_right fun _ => ?_
  cases e with
  | single k => simpa using hagree k
  | group ks =>
    rw [List.any_eq_true]
    refine exists_congr fun k => and_congr_right fun _ => ?_
    simpa using hagree k

/-- Claim C3 counterexample: for the chord requiring only key 0, after
pressing 0 the chord is active; pressing the unrelated key 1 is not a rising
edge (the predicate was already satisfied and stays satisfied), yet
on_input_event emits a press-activation event again. -/
theorem C3_press_not_only_on_rising_edge :
    is_valid_chord (runChord ⟨[KeyElem.single 0], []⟩
      [(0, InputEvent.KEY_PRESS)]).1 = true ∧
    (onChordInputEvent (runChord ⟨[KeyElem.single 0], []⟩
      [(0, InputEvent.KEY_PRESS)]).1 1 InputEvent.KEY_PRESS).2 = [ChordEvent.press] ∧
    (runChord ⟨[KeyElem.single 0], []⟩
      [(0, InputEvent.KEY_PRESS), (1, InputEvent.KEY_PRESS)]).2 =
      [ChordEvent.press, ChordEvent.press] := by
  refine ⟨rfl, rfl, rfl⟩

/-- Claim C3 (amended): for every chord and event sequence, the chord's
activation state equals "every required key-group currently has at least one
member pressed" over the pressed set derived from the events; and per event, a
press-activation is emitted iff the predicate holds after the event (so on
every rising edge but also repeatedly while the chord stays satisfied), while
a release-activation is emitted iff the predicate held before the event and no
longer holds after it (exactly the falling edges). -/
theorem C3_chord_activation (keys : List KeyElem) (events : List (ℕ × InputEvent))
    (key : ℕ) (ev : InputEvent) :
    (is_valid_chord (runChord ⟨keys, []⟩ events).1 = true ↔
      specChordSatisfied keys (specPressedSet events)) ∧
    (ChordEvent.press ∈
        (onChordInputEvent (runChord ⟨keys, []⟩ events).1 key ev).2 ↔
      is_valid_chord (chordUpdate (runChord ⟨keys, []⟩ events).1 key ev) = true) ∧
    (ChordEvent.release ∈
        (onChordInputEvent (runChord ⟨keys, []⟩ events).1 key ev).2 ↔
      (is_valid_chord (runChord ⟨keys, []⟩ events).1 = true ∧
        ¬ is_valid_chord (chordUpdate (runChord ⟨keys, []⟩ events).1 key ev) = true)) := by
  refine ⟨?_, ?_, ?_⟩
  · have hmem := runChord_mem_aux events ⟨keys, []⟩ ∅ (by simp) (by simp)
    have hkeys := runChord_keys ⟨keys, []⟩ events
    rw [is_valid_chord_iff _ _ hmem, hkeys]
    rfl
  · rw [onChordInputEvent_snd]
    split_ifs <;> simp_all
  · rw [onChordInputEvent_snd]
    split_ifs <;> simp_all

/-! ### KeyChord: tap sequences (src/input_manager.py lines 284-338) -/

/-- The immutable data of a tap-sequence KeyChord: ordered (primary,
secondary) pair and TAP_SEQUENCE_TIMEOUT (0.5 s in the source). -/
structure TapChord where
  primary_key : ℕ
  secondary_key : ℕ
  timeout : ℚ
  deriving DecidableEq, Repr

/-- The tap-sequence state: tap_state 0 with sequence_start_time None, or
tap_state 1 with sequence_start_time set. -/
inductive TapState
  | waitingForPrimary
  | waitingForSecondary (start : ℚ)
  deriving DecidableEq, Repr

/-- The trailing check of KeyChord.update: if we are waiting for the secondary
key and the timeout has elapsed, reset_sequence(). -/
def tapTimeoutCheck (c : TapChord) (s : TapState) (now : ℚ) : TapState :=
  match s with
  | TapState.waitingForSecondary start =>
      if now - start > c.timeout then TapState.waitingForPrimary else s
  | TapState.waitingForPrimary => s

/-- The tap-sequence branch of KeyChord.update: explicit two-state machine,
time.time() passed in as now.  Returns (new state, activation flag). -/
def tapUpdate (c : TapChord) (s : TapState) (key : ℕ) (ev : InputEvent)
    (now : ℚ) : TapState × Bool :=
  match ev with
  | InputEvent.KEY_PRESS =>
    match s with
    | TapState.waitingForPrimary =>
      if key = c.primary_key then
        (tapTimeoutCheck c (TapState.waitingForSecondary now) now, false)
      else (tapTimeoutCheck c s now, false)
    | TapState.waitingForSecondary start =>
      if key = c.secondary_key then
        if now - start ≤ c.timeout then (TapState.waitingForPrimary, true)
        else (TapState.waitingForPrimary, false)
      else if key = c.primary_key then
        (tapTimeoutCheck c (TapState.waitingForSecondary now) now, false)
      else (tapTimeoutCheck c s now, false)
  | InputEvent.KEY_RELEASE => (tapTimeoutCheck c s now, false)

/-- Run a tap-sequence chord over a timed event trace (key, event, time). -/
def runTap (c : TapChord) (s : TapState) : List (ℕ × InputEvent × ℚ) → TapState
  | [] => s
  | e :: es => runTap c (tapUpdate c s e.1 e.2.1 e.2.2).1 es

/-- A single update only ever produces a waitingForSecondary start time that
is the time of a primary-key press happening right now, unless it was already
the state's start time. -/
lemma tapUpdate_start_origin (c : TapChord) (s : TapState) (key : ℕ)
    (ev : InputEvent) (now u : ℚ)
    (h : (tapUpdate c s key ev now).1 = TapState.waitingForSecondary u) :
    (key = c.primary_key ∧ ev = InputEvent.KEY_PRESS ∧ u = now) ∨
      s = TapState.waitingForSecondary u := by
  cases ev with
  | KEY_RELEASE =>
    right
    cases s with
    | waitingForPrimary => simp [tapUpdate, tapTimeoutCheck] at h
    | waitingForSecondary t =>
      simp only [tapUpdate, tapTimeoutCheck] at h
      split_ifs at h <;> simp_all
  | KEY_PRESS =>
    cases s with
    | waitingForPrimary =>
      simp only [tapUpdate] at h
      split_ifs at h with h1 <;>
        (try simp only [tapTimeoutCheck] at h) <;>
        (try split_ifs at h) <;> simp_all
    | waitingForSecondary t =>
      simp only [tapUpdate] at h
      split_ifs at h with h1 h2 h3 <;>
        (try simp only [tapTimeoutCheck] at h) <;>
        (try split_ifs at h) <;> simp_all

/-- The waitingForSecondary start time always originates from a primary-key
press event at exactly that time in the trace. -/
lemma runTap_start_origin (c : TapChord) (trace : List (ℕ × InputEvent × ℚ))
    (t : ℚ)
    (h : runTap c TapState.waitingForPrimary trace = TapState.waitingForSecondary t) :
    (c.primary_key, InputEvent.KEY_PRESS, t) ∈ trace := by
  suffices H : ∀ (s : TapState), runTap c s trace = TapState.waitingForSecondary t →
      (c.primary_key, InputEvent.KEY_PRESS, t) ∈ trace ∨
        s = TapState.waitingForSecondary t by
    rcases H TapState.waitingForPrimary h with h' | h'
    · exact h'
    · cases h'
  clear h
  induction trace with
  | nil => intro s h; exact Or.inr h
  | cons e es ih =>
    intro s h
    rcases ih (tapUpdate c s e.1 e.2.1 e.2.2).1 h with h' | h'
    · exact Or.inl (List.mem_cons_of_mem _ h')
    · rcases tapUpdate_start_origin c s e.1 e.2.1 e.2.2 t h' with ⟨h1, h2, h3⟩ | h1
      · left
        subst h3
        have : e = (c.primary_key, InputEvent.KEY_PRESS, e.2.2) := by
          cases e with
          | mk k rest => cases rest with
            | mk v τ => simp_all
        rw [this]
        exact List.mem_cons_self _ _
      · exact Or.inr h1

/-- Claim C4: a tap-sequence update reports activation iff a press of the
secondary key arrives in the waiting-for-secondary state within the timeout;
re-pressing the primary restarts the timer; a late secondary resets without
activating; releases never activate; and the recorded start time of the
waiting state always comes from a primary-key press at exactly that time. -/
theorem C4_tap_sequence (c : TapChord) (s : TapState) (key : ℕ)
    (ev : InputEvent) (now start : ℚ) :
    ((tapUpdate c s key ev now).2 = true ↔
      (ev = InputEvent.KEY_PRESS ∧ key = c.secondary_key ∧
        ∃ t, s = TapState.waitingForSecondary t ∧ now - t ≤ c.timeout)) ∧
    (key = c.primary_key → key ≠ c.secondary_key → 0 ≤ c.timeout →
      tapUpdate c (TapState.waitingForSecondary start) key InputEvent.KEY_PRESS now =
        (TapState.waitingForSecondary now, false)) ∧
    (now - start > c.timeout →
      tapUpdate c (TapState.waitingForSecondary start) c.secondary_key
        InputEvent.KEY_PRESS now = (TapState.waitingForPrimary, false)) ∧
    (ev = InputEvent.KEY_RELEASE → (tapUpdate c s key ev now).2 = false) ∧
    (∀ (trace : List (ℕ × InputEvent × ℚ)) (t : ℚ),
      runTap c TapState.waitingForPrimary trace = TapState.waitingForSecondary t →
        (c.primary_key, InputEvent.KEY_PRESS, t) ∈ trace) := by
  refine ⟨?_, ?_, ?_, ?_, runTap_start_origin c⟩
  · cases ev with
    | KEY_RELEASE => simp [tapUpdate]
    | KEY_PRESS =>
      cases s with
      | waitingForPrimary => simp [tapUpdate]; split_ifs <;> simp
      | waitingForSecondary t =>
        simp only [tapUpdate]
        split_ifs with h1 h2 h3 <;> simp_all
  · intro h1 h2 h3
    subst h1
    simp only [tapUpdate, tapTimeoutCheck]
    split_ifs <;> simp_all <;> linarith
  · intro h
    simp only [tapUpdate, tapTimeoutCheck]
    split_ifs <;> simp_all <;> linarith
  · intro h
    subst h
    simp [tapUpdate]

/-- Witness for C4 at a concrete chord (primary 0, secondary 1, timeout 1/2):
a secondary press 1/4 after the primary activates, a primary re-press restarts
the timer, and a secondary press 3/4 after the primary resets silently. -/
theorem C4_tap_sequence_witness :
    ((tapUpdate ⟨0, 1, 1/2⟩ (TapState.waitingForSecondary 0) 1
        InputEvent.KEY_PRESS (1/4)).2 = true ↔
      (InputEvent.KEY_PRESS = InputEvent.KEY_PRESS ∧ (1 : ℕ) = 1 ∧
        ∃ t, TapState.waitingForSecondary 0 = TapState.waitingForSecondary t ∧
          (1/4 : ℚ) - t ≤ 1/2)) ∧
    tapUpdate ⟨0, 1, 1/2⟩ (TapState.waitingForSecondary 0) 0
      InputEvent.KEY_PRESS (1/4) = (TapState.waitingForSecondary (1/4), false) ∧
    tapUpdate ⟨0, 1, 1/2⟩ (TapState.waitingForSecondary 0) 1
      InputEvent.KEY_PRESS (3/4) = (TapState.waitingForPrimary, false) := by
  have h := C4_tap_sequence ⟨0, 1, 1/2⟩ (TapState.waitingForSecondary 0) 1
    InputEvent.KEY_PRESS (1/4) 0
  have h2 := C4_tap_sequence ⟨0, 1, 1/2⟩ (TapState.waitingForSecondary 0) 0
    InputEvent.KEY_PRESS (1/4) 0
  have h3 := C4_tap_sequence ⟨0, 1, 1/2⟩ (TapState.waitingForSecondary 0) 1
    InputEvent.KEY_PRESS (3/4) 0
  exact ⟨h.1, h2.2.1 rfl (by decide) (by norm_num),
    h3.2.2.1 (by norm_num)⟩

/-! ### App session state machine and StreamingResultHandler (src/apps.py) -/

/-- Output modes of App.output / StreamingResultHandler.handle_result.  The
source compares strings; unrecognised strings fall in the catch-all. -/
inductive OutputMode
  | clipboard
  | notification
  | popup
  | text
  | voice
  | other
  deriving DecidableEq, Repr

/-- Per-app configuration read in App.__init__, plus the ambient clipboard
contents returned by read_clipboard() (None when unavailable). -/
structure AppCfg where
  read_from_clipboard : Bool
  save_output_to_clipboard : Bool
  output_mode : OutputMode
  is_llm_streaming : Bool
  clipboard : Option String
  deriving DecidableEq, Repr

/-- StreamingResultHandler mutable state: buffer and full_message. -/
structure SRHState where
  buffer : String
  full_message : String
  deriving DecidableEq, Repr

/-- Observable side effects: event-bus emissions, queue pushes and output-sink
writes.  Display strings interpolated with the app name are abstracted to the
event kind. -/
inductive Eff
  | app_state_change_recording
  | app_state_change_transcribing
  | app_state_change_inferring
  | app_state_change_clear
  | inferencing_skipped
  | inferencing_complete (old_sid : Option ℕ)
  | llm_queue_push (transcription : String) (clipboard_content : String)
  | llm_queue_push_none
  | llm_start_inference (sid : ℕ)
  | transcription_start (sid : ℕ)
  | to_clipboard (s : String)
  | show_balloon (s : String)
  | show_popup (s : String)
  | typewrite (s : String)
  | start_of_stream_evt
  | end_of_stream_evt
  | add_text_to_popup (s : String)
  deriving DecidableEq, Repr

/-- App.output: dispatch the text to the configured sink; empty or missing
text produces nothing. -/
def appOutput (cfg : AppCfg) (t : Option String) : List Eff :=
  match t with
  | none => []
  | some s =>
    if s = "" then []
    else
      (match cfg.output_mode with
       | OutputMode.clipboard => [Eff.to_clipboard s]
       | OutputMode.notification => [Eff.show_balloon s]
       | OutputMode.popup => [Eff.show_popup s]
       | OutputMode.text => [Eff.typewrite s]
       | OutputMode.voice => [Eff.show_balloon s]
       | OutputMode.other => []) ++
      (if cfg.save_output_to_clipboard then [Eff.to_clipboard s] else [])

/-- StreamingResultHandler.handle_result: result['assistant'] may be None, a
sentinel token, or an ordinary fragment. -/
def srhHandle (st : SRHState) (assistant : Option String) (mode : OutputMode) :
    SRHState × List Eff :=
  match assistant with
  | none => (st, [])
  | some t =>
    if t = "" then (st, [])
    else if t = "<start_of_stream>" then
      (st, if mode = OutputMode.popup then [Eff.start_of_stream_evt] else [])
    else if t = "<end_of_stream>" then
      (⟨"", ""⟩,
       (if mode = OutputMode.clipboard then [Eff.to_clipboard st.full_message]
        else if mode = OutputMode.notification then [Eff.show_balloon st.full_message]
        else []) ++ [Eff.end_of_stream_evt])
    else
      (⟨t, st.full_message ++ t⟩,
       match mode with
       | OutputMode.popup => [Eff.add_text_to_popup t]
       | OutputMode.text => [Eff.typewrite t]
       | OutputMode.voice => [Eff.show_balloon t]
       | _ => [])

/-- The mutable state of an App relevant to its session lifecycle. -/
structure AppM where
  state : AppState
  current_session_id : Option ℕ
  result_handler : SRHState
  deriving DecidableEq, Repr

/-- The App state right after __init__. -/
def appInit : AppM :=
  { state := AppState.IDLE, current_session_id := none, result_handler := ⟨"", ""⟩ }

/-- App.start_transcription. -/
def appStartTranscription (a : AppM) (sid : ℕ) : AppM × List Eff :=
  ({ a with current_session_id := some sid, state := AppState.RECORDING },
   [Eff.app_state_change_recording, Eff.transcription_start sid])

/-- App.recording_stopped. -/
def appRecordingStopped (a : AppM) : AppM × List Eff :=
  if a.state = AppState.RECORDING then
    ({ a with state := AppState.TRANSCRIBING }, [Eff.app_state_change_transcribing])
  else (a, [])

/-- App.finish_inferencing. -/
def appFinishInferencing (a : AppM) : AppM × List Eff :=
  ({ a with state := AppState.IDLE, current_session_id := none },
   Eff.app_state_change_clear ::
     (if a.state = AppState.INFERENCING ∨ a.state = AppState.RECORDING ∨
         a.state = AppState.TRANSCRIBING then
        [Eff.inferencing_complete a.current_session_id]
      else []))

/-- A raw transcription result payload. -/
structure TResult where
  raw_text : String
  error : Option String
  deriving DecidableEq, Repr

/-- An inferencing result payload. -/
structure IResult where
  assistant : Option String
  deriving DecidableEq, Repr

/-- App.handle_raw_transcription. -/
def appHandleRawTranscription (cfg : AppCfg) (a : AppM) (r : TResult) (sid : ℕ) :
    AppM × List Eff :=
  if some sid ≠ a.current_session_id then (a, [])
  else if r.error ≠ none then
    let f := appFinishInferencing a
    (f.1, f.2 ++ [Eff.inferencing_skipped])
  else if (is_bad_transcription r.raw_text).1 then
    let f := appFinishInferencing a
    (f.1, f.2 ++ [Eff.inferencing_skipped])
  else
    let clipboard_content :=
      match cfg.clipboard with
      | some c => if cfg.read_from_clipboard then c else ""
      | none => ""
    ({ a with current_session_id := some sid, state := AppState.INFERENCING },
     [Eff.app_state_change_inferring,
      Eff.llm_queue_push r.raw_text clipboard_content,
      Eff.llm_queue_push_none, Eff.llm_start_inference sid])

/-- App.handle_inferencing_result. -/
def appHandleInferencingResult (cfg : AppCfg) (a : AppM) (r : IResult) (sid : ℕ) :
    AppM × List Eff :=
  if some sid ≠ a.current_session_id then (a, [])
  else
    let a1 := { a with current_session_id := some sid }
    if cfg.is_llm_streaming then
      let h := srhHandle a1.result_handler r.assistant cfg.output_mode
      ({ a1 with result_handler := h.1 }, h.2)
    else (a1, appOutput cfg r.assistant)

/-- The operations of claim C2, in the order they can be invoked on one App. -/
inductive AppOp
  | start (sid : ℕ)
  | rec_stopped
  | raw (r : TResult) (sid : ℕ)
  | inf (r : IResult) (sid : ℕ)
  | finish
  deriving DecidableEq, Repr

/-- One operation applied to an App. -/
def appStep (cfg : AppCfg) (a : AppM) : AppOp → AppM × List Eff
  | AppOp.start sid => appStartTranscription a sid
  | AppOp.rec_stopped => appRecordingStopped a
  | AppOp.raw r sid => appHandleRawTranscription cfg a r sid
  | AppOp.inf r sid => appHandleInferencingResult cfg a r sid
  | AppOp.finish => appFinishInferencing a

/-- Run an operation sequence from the freshly constructed App. -/
def appRun (cfg : AppCfg) (ops : List AppOp) : AppM :=
  ops.foldl (fun a op => (appStep cfg a op).1) appInit

/-- The transition relation exactly as claim C2 states it:
Idle→Recording→Transcribing→(Idle | Inferencing)→Idle, plus staying put. -/
def specTransition (s t : AppState) : Prop :=
  s = t ∨
  (s = AppState.IDLE ∧ t = AppState.RECORDING) ∨
  (s = AppState.RECORDING ∧ t = AppState.TRANSCRIBING) ∨
  (s = AppState.TRANSCRIBING ∧ t = AppState.IDLE) ∨
  (s = AppState.TRANSCRIBING ∧ t = AppState.INFERENCING) ∨
  (s = AppState.INFERENCING ∧ t = AppState.IDLE)

/-- The transition relation the code actually realises: the claimed edges plus
Recording→Inferencing and Recording→Idle (a matching transcription result or a
finish while still Recording) and X→Recording for any X (start_transcription
is unguarded). -/
def codeTransition (s t : AppState) : Prop :=
  specTransition s t ∨
  (s = AppState.RECORDING ∧ t = AppState.INFERENCING) ∨
  (s = AppState.RECORDING ∧ t = AppState.IDLE) ∨
  (s = AppState.TRANSCRIBING ∧ t = AppState.RECORDING) ∨
  (s = AppState.INFERENCING ∧ t = AppState.RECORDING)

/-- The session-id invariant: current_session_id is set iff not Idle. -/
def appInv (a : AppM) : Prop :=
  a.current_session_id ≠ none ↔ a.state ≠ AppState.IDLE

lemma appInv_init : appInv appInit := by simp [appInv, appInit]

lemma appStep_inv (cfg : AppCfg) (a : AppM) (op : AppOp) (h : appInv a) :
    appInv (appStep cfg a op).1 ∧ codeTransition a.state (appStep cfg a op).1.state := by
  cases op with
  | start sid =>
    constructor
    · simp [appStep, appStartTranscription, appInv]
    · cases ha : a.state <;>
        simp [appStep, appStartTranscription, codeTransition, specTransition]
  | rec_stopped =>
    unfold appStep appRecordingStopped
    split_ifs with hs
    · exact ⟨by simp_all [appInv], by simp [hs, codeTransition, specTransition]⟩
    · exact ⟨h, Or.inl (Or.inl rfl)⟩
  | finish =>
    constructor
    · simp [appStep, appFinishInferencing, appInv]
    · cases ha : a.state <;>
        simp [appStep, appFinishInferencing, codeTransition, specTransition]
  | raw r sid =>
    simp only [appStep, appHandleRawTranscription]
    by_cases h1 : some sid ≠ a.current_session_id
    · rw [if_pos h1]
      exact ⟨h, Or.inl (Or.inl rfl)⟩
    · rw [if_neg h1]
      by_cases h2 : r.error ≠ none
      · rw [if_pos h2]
        refine ⟨by simp [appFinishInferencing, appInv], ?_⟩
        cases ha : a.state <;>
          simp [appFinishInferencing, codeTransition, specTransition]
      · rw [if_neg h2]
        by_cases h3 : (is_bad_transcription r.raw_text).1 = true
        · rw [if_pos h3]
          refine ⟨by simp [appFinishInferencing, appInv], ?_⟩
          cases ha : a.state <;>
            simp [appFinishInferencing, codeTransition, specTransition]
        · rw [if_neg h3]
          refine ⟨by simp [appInv], ?_⟩
          have hsid : a.current_session_id = some sid := by
            push_neg at h1; exact h1.symm
          have hne : a.state ≠ AppState.IDLE := h.mp (by simp [hsid])
          cases ha : a.state
          · exact absurd ha hne
          · simp [codeTransition, specTransition]
          · simp [codeTransition, specTransition]
          · simp [codeTransition, specTransition]
  | inf r sid =>
    simp only [appStep, appHandleInferencingResult]
    by_cases h1 : some sid ≠ a.current_session_id
    · rw [if_pos h1]
      exact ⟨h, Or.inl (Or.inl rfl)⟩
    · rw [if_neg h1]
      have hsid : a.current_session_id = some sid := by
        push_neg at h1; exact h1.symm
      split_ifs with h2
      · exact ⟨by simp_all [appInv], Or.inl (Or.inl rfl)⟩
      · exact ⟨by simp_all [appInv], Or.inl (Or.inl rfl)⟩

lemma appRun_inv (cfg : AppCfg) (ops : List AppOp) : appInv (appRun cfg ops) := by
  suffices H : ∀ (a : AppM), appInv a →
      appInv (ops.foldl (fun a op => (appStep cfg a op).1) a) by
    exact H appInit appInv_init
  induction ops with
  | nil => intro a h; exact h
  | cons op ops ih =>
    intro a h
    exact ih _ (appStep_inv cfg a op h).1

/-- Claim C2 counterexample: from Idle, start a session, then (while still
Recording, as happens in streaming capture) deliver a good matching raw
transcription.  The state jumps Recording→Inferencing, a transition the claim
forbids. -/
theorem C2_recording_to_inferencing_reachable :
    (appRun ⟨false, false, OutputMode.text, false, none⟩
        [AppOp.start 1]).state = AppState.RECORDING ∧
    (appRun ⟨false, false, OutputMode.text, false, none⟩
        [AppOp.start 1,
         AppOp.raw ⟨"please schedule the meeting", none⟩ 1]).state =
      AppState.INFERENCING ∧
    ¬ specTransition AppState.RECORDING AppState.INFERENCING := by
  refine ⟨rfl, ?_, by simp [specTransition]⟩
  have hbad := good_please
  simp only [appRun, List.foldl_cons, List.foldl_nil, appStep,
    appHandleRawTranscription, appStartTranscription, appInit]
  rw [if_neg (by simp), if_neg (by simp), if_neg (by simp [hbad])]

/-- Claim C2 (amended): under arbitrary operation sequences every transition
taken lies in codeTransition — the claimed chain plus Recording→Inferencing,
Recording→Idle, Transcribing→Recording and Inferencing→Recording — and the
invariant current_session_id ≠ none ↔ state ≠ Idle holds at every point. -/
theorem C2_transitions_and_invariant (cfg : AppCfg) (ops : List AppOp) (op : AppOp) :
    codeTransition (appRun cfg ops).state
      (appStep cfg (appRun cfg ops) op).1.state ∧
    ((appRun cfg ops).current_session_id ≠ none ↔
      (appRun cfg ops).state ≠ AppState.IDLE) := by
  exact ⟨(appStep_inv cfg (appRun cfg ops) op (appRun_inv cfg ops)).2,
    appRun_inv cfg ops⟩

/-- Claim C8: a transcription or inference result whose session id differs
from the app's current session id changes nothing: same state, same session
id, same streaming-handler state, and no effect (no event, queue push, or
output) is produced.  Totality of the model reflects that no exception is
raised (the session check precedes every access to the result payload). -/
theorem C8_stale_results_are_noops (cfg : AppCfg) (a : AppM) (rt : TResult)
    (ri : IResult) (sid : ℕ) (h : some sid ≠ a.current_session_id) :
    appHandleRawTranscription cfg a rt sid = (a, []) ∧
    appHandleInferencingResult cfg a ri sid = (a, []) := by
  constructor
  · unfold appHandleRawTranscription
    rw [if_pos h]
  · unfold appHandleInferencingResult
    rw [if_pos h]

/-- Witness for C8: a freshly constructed app has no current session, so
session id 0 is stale and both handlers leave the app untouched. -/
theorem C8_stale_results_are_noops_witness :
    appHandleRawTranscription ⟨false, false, OutputMode.text, false, none⟩
      appInit ⟨"hi", none⟩ 0 = (appInit, []) ∧
    appHandleInferencingResult ⟨false, false, OutputMode.text, false, none⟩
      appInit ⟨some "hi"⟩ 0 = (appInit, []) :=
  C8_stale_results_are_noops _ appInit ⟨"hi", none⟩ ⟨some "hi"⟩ 0 (by simp [appInit])

/-! ### StreamingResultHandler accumulation (claim C10) -/

/-- Run the streaming handler over a sequence of assistant fragments, from the
freshly constructed handler (buffer = full_message = ""). -/
def srhRun (mode : OutputMode) (rs : List (Option String)) : SRHState :=
  rs.foldl (fun st r => (srhHandle st r mode).1) ⟨"", ""⟩

/-- Spec-side accumulator: ordinary (non-sentinel, non-empty) fragments are
appended; an end-of-stream token resets the accumulation. -/
def specStreamStep (acc : String) (r : Option String) : String :=
  match r with
  | none => acc
  | some t =>
    if t = "" then acc
    else if t = "<start_of_stream>" then acc
    else if t = "<end_of_stream>" then ""
    else acc ++ t

/-- Concatenation of the ordinary fragments received since the last
end-of-stream token (or since construction). -/
def specStreamAccum (rs : List (Option String)) : String :=
  rs.foldl specStreamStep ""

lemma srhHandle_full_message (st : SRHState) (r : Option String) (mode : OutputMode) :
    (srhHandle st r mode).1.full_message = specStreamStep st.full_message r := by
  cases r with
  | none => rfl
  | some t =>
    simp only [srhHandle, specStreamStep]
    split_ifs <;> rfl

lemma srhRun_full_message (mode : OutputMode) (rs : List (Option String)) :
    (srhRun mode rs).full_message = specStreamAccum rs := by
  suffices H : ∀ (st : SRHState),
      (rs.foldl (fun st r => (srhHandle st r mode).1) st).full_message =
        rs.foldl specStreamStep st.full_message by
    exact H ⟨"", ""⟩
  induction rs with
  | nil => intro st; rfl
  | cons r rs ih =>
    intro st
    simp only [List.foldl_cons]
    rw [ih, srhHandle_full_message]

/-- Claim C10: after any handled sequence, the accumulated full_message is
exactly the concatenation of the ordinary fragments since the last
end-of-stream; handling an end-of-stream token resets buffer and full_message
to empty, and the text written to the clipboard (clipboard mode) or shown as a
balloon (notification mode) at that point is exactly that concatenation, never
including fragments from an earlier stream. -/
theorem C10_streaming_accumulation (mode : OutputMode) (rs : List (Option String)) :
    (srhRun mode rs).full_message = specStreamAccum rs ∧
    (srhHandle (srhRun mode rs) (some "<end_of_stream>") mode).1 =
      ⟨"", ""⟩ ∧
    (mode = OutputMode.clipboard →
      (srhHandle (srhRun mode rs) (some "<end_of_stream>") mode).2 =
        [Eff.to_clipboard (specStreamAccum rs), Eff.end_of_stream_evt]) ∧
    (mode = OutputMode.notification →
      (srhHandle (srhRun mode rs) (some "<end_of_stream>") mode).2 =
        [Eff.show_balloon (specStreamAccum rs), Eff.end_of_stream_evt]) := by
  refine ⟨srhRun_full_message mode rs, ?_, ?_, ?_⟩
  · simp [srhHandle]
  · intro hm
    subst hm
    simp [srhHandle, srhRun_full_message]
  · intro hm
    subst hm
    simp [srhHandle, srhRun_full_message]

/-- Witness for C10 in clipboard mode: a stream of two fragments interrupted
by an earlier end-of-stream writes only the later fragments. -/
theorem C10_streaming_accumulation_witness :
    (srhRun OutputMode.clipboard
        [some "a", some "<end_of_stream>", some "b", some "c"]).full_message =
      specStreamAccum [some "a", some "<end_of_stream>", some "b", some "c"] ∧
    (srhHandle (srhRun OutputMode.clipboard
        [some "a", some "<end_of_stream>", some "b", some "c"])
        (some "<end_of_stream>") OutputMode.clipboard).2 =
      [Eff.to_clipboard "bc", Eff.end_of_stream_evt] := by
  have h := C10_streaming_accumulation OutputMode.clipboard
    [some "a", some "<end_of_stream>", some "b", some "c"]
  refine ⟨h.1, ?_⟩
  rw [h.2.2.1 rfl]
  rfl

/-! ### AudioManager capture loop (src/audio_manager.py) -/

/-- The recording configuration fields of _prepare_audio_config that the
capture loop consumes.  streaming_chunk_size is positive in the source
(`app.streaming_chunk_size or 4096`). -/
structure AudioCfg where
  sample_rate : ℕ
  gain : ℚ
  streaming_chunk_size : ℕ
  silence_frames : ℕ
  use_vad : Bool
  is_streaming : Bool
  deriving DecidableEq, Repr

/-- _process_audio_frame: scale by the gain and clip to [-1, 1]. -/
def processAudioFrame (frame : List ℚ) (gain : ℚ) : List ℚ :=
  frame.map fun x => max (-1) (min 1 (x * gain))

/-- Fuelled version of the while-loop of _handle_streaming; the fuel only
bounds the number of loop iterations (each removes C ≥ 1 samples). -/
def sliceChunksF : ℕ → ℕ → List ℚ → List (List ℚ) × List ℚ
  | 0, _, buf => ([], buf)
  | fuel + 1, C, buf =>
    if 0 < C ∧ C ≤ buf.length then
      let rest := sliceChunksF fuel C (buf.drop C)
      (buf.take C :: rest.1, rest.2)
    else ([], buf)

/-- The while-loop of _handle_streaming: slice chunks of exactly
streaming_chunk_size samples off the front of the buffer while at least one
full chunk fits; return (chunks pushed in order, residual buffer).  (The
source would loop forever on chunk size 0; the 0 < C guard makes the model
total.) -/
def sliceChunks (C : ℕ) (buf : List ℚ) : List (List ℚ) × List ℚ :=
  sliceChunksF buf.length C buf

lemma sliceChunksF_join (fuel C : ℕ) : ∀ (buf : List ℚ), buf.length ≤ fuel →
    (sliceChunksF fuel C buf).1.flatten ++ (sliceChunksF fuel C buf).2 = buf := by
  induction fuel with
  | zero => intro buf hb; rfl
  | succ n ih =>
    intro buf hb
    rw [sliceChunksF]
    split_ifs with h
    · have hd : (buf.drop C).length ≤ n := by
        simp only [List.length_drop]; omega
      simp only [List.flatten_cons, List.append_assoc, ih _ hd]
      exact List.take_append_drop C buf
    · rfl

lemma sliceChunksF_chunk_len (fuel C : ℕ) : ∀ (buf : List ℚ),
    ∀ c ∈ (sliceChunksF fuel C buf).1, c.length = C := by
  induction fuel with
  | zero => intro buf c hc; simp [sliceChunksF] at hc
  | succ n ih =>
    intro buf c hc
    rw [sliceChunksF] at hc
    split_ifs at hc with h
    · rcases List.mem_cons.mp hc with h' | h'
      · rw [h', List.length_take]; omega
      · exact ih _ c h'
    · simp at hc

lemma sliceChunksF_residual (fuel C : ℕ) (hC : 0 < C) : ∀ (buf : List ℚ),
    buf.length ≤ fuel → (sliceChunksF fuel C buf).2.length < C := by
  induction fuel with
  | zero =>
    intro buf hb
    have : buf.length = 0 := by omega
    simp [sliceChunksF, this]; omega
  | succ n ih =>
    intro buf hb
    rw [sliceChunksF]
    split_ifs with h
    · exact ih _ (by simp only [List.length_drop]; omega)
    · simp only [not_and, not_le] at h
      exact h hC

lemma sliceChunks_join (C : ℕ) (buf : List ℚ) :
    (sliceChunks C buf).1.flatten ++ (sliceChunks C buf).2 = buf :=
  sliceChunksF_join _ C buf le_rfl

lemma sliceChunks_chunk_len (C : ℕ) (buf : List ℚ) :
    ∀ c ∈ (sliceChunks C buf).1, c.length = C :=
  sliceChunksF_chunk_len _ C buf

lemma sliceChunks_residual (C : ℕ) (hC : 0 < C) (buf : List ℚ) :
    (sliceChunks C buf).2.length < C :=
  sliceChunksF_residual _ C hC buf le_rfl

/-- Fold the streaming slicing over a sequence of appended frames, tracking
the pushed chunks and the residual buffer: exactly what the capture loop does
once per read frame when streaming is enabled. -/
def streamRun (C : ℕ) (frames : List (List ℚ)) : List (List ℚ) × List ℚ :=
  frames.foldl
    (fun st f =>
      let r := sliceChunks C (st.2 ++ f)
      (st.1 ++ r.1, r.2))
    ([], [])

lemma streamRun_aux (C : ℕ) (hC : 0 < C) (frames : List (List ℚ)) :
    ∀ (st : List (List ℚ) × List ℚ),
      (∀ c ∈ st.1, c.length = C) → st.2.length < C →
      (∀ c ∈ (frames.foldl
          (fun st f =>
            let r := sliceChunks C (st.2 ++ f)
            (st.1 ++ r.1, r.2)) st).1, c.length = C) ∧
      ((frames.foldl
          (fun st f =>
            let r := sliceChunks C (st.2 ++ f)
            (st.1 ++ r.1, r.2)) st).2.length < C) ∧
      ((frames.foldl
          (fun st f =>
            let r := sliceChunks C (st.2 ++ f)
            (st.1 ++ r.1, r.2)) st).1.flatten ++
        (frames.foldl
          (fun st f =>
            let r := sliceChunks C (st.2 ++ f)
            (st.1 ++ r.1, r.2)) st).2 =
        st.1.flatten ++ st.2 ++ frames.flatten) := by
  induction frames with
  | nil =>
    intro st h1 h2
    exact ⟨h1, h2, by simp⟩
  | cons f fs ih =>
    intro st h1 h2
    simp only [List.foldl_cons]
    have hstep1 : ∀ c ∈ (st.1 ++ (sliceChunks C (st.2 ++ f)).1), c.length = C := by
      intro c hc
      rcases List.mem_append.mp hc with h' | h'
      · exact h1 c h'
      · exact sliceChunks_chunk_len C _ c h'
    have hstep2 : (sliceChunks C (st.2 ++ f)).2.length < C :=
      sliceChunks_residual C hC _
    obtain ⟨g1, g2, g3⟩ :=
      ih (st.1 ++ (sliceChunks C (st.2 ++ f)).1, (sliceChunks C (st.2 ++ f)).2)
        hstep1 hstep2
    refine ⟨g1, g2, ?_⟩
    rw [g3]
    simp only [List.flatten_append, List.append_assoc, List.flatten_cons]
    rw [← List.append_assoc (sliceChunks C (st.2 ++ f)).1.flatten,
      sliceChunks_join C (st.2 ++ f)]
    simp [List.append_assoc]

/-- Claim C7: for positive chunk size C, every chunk streamed downstream has
exactly C samples, their in-order concatenation followed by the residual
buffer reconstructs the whole captured sample stream (no sample duplicated or
dropped across chunk boundaries), and after each slicing pass the residual
buffer holds fewer than C samples. -/
theorem C7_streaming_chunks (C : ℕ) (frames : List (List ℚ)) (hC : 0 < C) :
    (∀ c ∈ (streamRun C frames).1, c.length = C) ∧
    (streamRun C frames).1.flatten ++ (streamRun C frames).2 = frames.flatten ∧
    (streamRun C frames).2.length < C := by
  obtain ⟨g1, g2, g3⟩ := streamRun_aux C hC frames ([], []) (by simp) (by simpa using hC)
  exact ⟨g1, by simpa using g3, g2⟩

/-- Witness for C7: chunk size 2 over frames [1,2,3], [4] slices chunks
[1,2], [3,4] with empty residual. -/
theorem C7_streaming_chunks_witness :
    0 < 2 ∧
    ((∀ c ∈ (streamRun 2 [[1, 2, 3], [4]]).1, c.length = 2) ∧
      (streamRun 2 [[1, 2, 3], [4]]).1.flatten ++ (streamRun 2 [[1, 2, 3], [4]]).2 =
        ([[1, 2, 3], [4]] : List (List ℚ)).flatten ∧
      (streamRun 2 [[1, 2, 3], [4]]).2.length < 2) :=
  ⟨by decide, C7_streaming_chunks 2 [[1, 2, 3], [4]] (by decide)⟩

/-! ### Capture loop termination and end-of-recording events (C5, C6) -/

/-- What the capture loop observes at the top of one iteration: the engine
state, whether the recording queue holds a pending item (stop sentinel or next
request), the samples the stream read returns, and the VAD classification of
that frame. -/
structure CaptureEnv where
  engine_stopped : Bool
  queue_nonempty : Bool
  frame : List ℚ
  vad_is_speech : Bool
  deriving DecidableEq, Repr

/-- Mutable state of _capture_audio: the recording buffer (residual buffer
when streaming), chunks already pushed by _handle_streaming, the consecutive
silent-frame counter, whether speech was ever detected, and the remaining
initial frames for which VAD evaluation is skipped. -/
structure CaptureSt where
  recording : List ℚ
  pushed : List (List ℚ)
  silent_frame_count : ℕ
  speech_detected : Bool
  frames_to_skip : ℕ
  deriving DecidableEq, Repr

/-- Why the capture loop ended.  endOfInput marks exhaustion of the modelled
environment list (the real loop would keep reading). -/
inductive ExitReason
  | engineStop
  | manualStop
  | vadSilence
  | endOfInput
  deriving DecidableEq, Repr

/-- _handle_streaming applied to the capture state: slice full chunks off the
recording buffer and push them. -/
def handleStreamingStep (C : ℕ) (st : CaptureSt) : CaptureSt :=
  { st with recording := (sliceChunks C st.recording).2,
            pushed := st.pushed ++ (sliceChunks C st.recording).1 }

/-- The while loop of _capture_audio: check stop conditions, read and process
a frame, run the streaming slicer, then the VAD silence logic with its
initial-frames skip and its break once silence outlasts silence_frames. -/
def runCapture (cfg : AudioCfg) : CaptureSt → List CaptureEnv → CaptureSt × ExitReason
  | st, [] => (st, ExitReason.endOfInput)
  | st, e :: es =>
    if e.engine_stopped then (st, ExitReason.engineStop)
    else if e.queue_nonempty then (st, ExitReason.manualStop)
    else
      let fa := processAudioFrame e.frame cfg.gain
      let st1 := { st with recording := st.recording ++ fa }
      let st2 :=
        if cfg.is_streaming then handleStreamingStep cfg.streaming_chunk_size st1
        else st1
      if cfg.use_vad then
        if 0 < st2.frames_to_skip then
          runCapture cfg { st2 with frames_to_skip := st2.frames_to_skip - 1 } es
        else
          let st3 :=
            if e.vad_is_speech then
              { st2 with silent_frame_count := 0, speech_detected := true }
            else
              { st2 with silent_frame_count := st2.silent_frame_count + 1 }
          if st3.speech_detected ∧ cfg.silence_frames < st3.silent_frame_count then
            (st3, ExitReason.vadSilence)
          else runCapture cfg st3 es
      else runCapture cfg st2 es

/-- The post-loop emission guard of _record_audio (line 92): emit
"recording_stopped" iff VAD is configured and the manager state is not
STOPPED — the manager is STOPPED after the loop exactly when the loop exited
because of engine shutdown. -/
def recordingStoppedEmitted (cfg : AudioCfg) (reason : ExitReason) : Bool :=
  cfg.use_vad && !(reason == ExitReason.engineStop)

/-- A VAD recording configuration (16 kHz, 30 ms frames, no streaming);
initial_frames_to_skip = int(0.15 * 16000 / 480) = 5. -/
def c5cfg : AudioCfg :=
  { sample_rate := 16000, gain := 1, streaming_chunk_size := 4096,
    silence_frames := 30, use_vad := true, is_streaming := false }

/-- The capture state at loop entry for c5cfg. -/
def c5init : CaptureSt :=
  { recording := [], pushed := [], silent_frame_count := 0,
    speech_detected := false, frames_to_skip := 5 }

/-- Claim C5 failing input: with VAD enabled, a manual stop_recording request
(sentinel in the queue at the top of the loop) ends the capture, yet the
post-loop guard still publishes "recording_stopped", because it only excludes
engine shutdown — contradicting the claim (and the source's own comment) that
the event marks automatic VAD termination. -/
theorem C5_manual_stop_also_emits :
    runCapture c5cfg c5init
        [{ engine_stopped := false, queue_nonempty := true, frame := [],
           vad_is_speech := false }] = (c5init, ExitReason.manualStop) ∧
    recordingStoppedEmitted c5cfg ExitReason.manualStop = true ∧
    recordingStoppedEmitted c5cfg ExitReason.engineStop = false ∧
    ExitReason.manualStop ≠ ExitReason.vadSilence :=
  ⟨rfl, rfl, rfl, by decide⟩

/-! ### Non-streaming disposition of the buffer (C6) -/

/-- What _record_audio / _process_non_streaming_audio push on the owning
app's audio queue. -/
inductive AudioQueueItem
  | chunk (samples : List ℚ)
  | sentinel
  deriving DecidableEq, Repr

/-- Events the recording tail publishes on the bus. -/
inductive AudioEvent
  | audio_discarded (sid : ℕ)
  | recording_stopped (sid : ℕ)
  deriving DecidableEq, Repr

/-- _process_non_streaming_audio: discard when VAD never saw speech, else
push the whole buffer as one chunk when the duration reaches 200 ms, else
discard as too short. -/
def processNonStreamingAudio (cfg : AudioCfg) (sid : ℕ) (recording : List ℚ)
    (speech_detected : Bool) : List AudioQueueItem × List AudioEvent :=
  if cfg.use_vad && !speech_detected then
    ([], [AudioEvent.audio_discarded sid])
  else if ((recording.length : ℚ) / cfg.sample_rate) * 1000 ≥ 200 then
    ([AudioQueueItem.chunk recording], [])
  else
    ([], [AudioEvent.audio_discarded sid])

/-- The tail of _record_audio after the capture loop: non-streaming
disposition of the buffer, then the unconditional sentinel push, then the
recording_stopped emission guard. -/
def recordAudioFinish (cfg : AudioCfg) (sid : ℕ) (recording : List ℚ)
    (speech_detected : Bool) (reason : ExitReason) :
    List AudioQueueItem × List AudioEvent :=
  let p :=
    if !cfg.is_streaming then
      processNonStreamingAudio cfg sid recording speech_detected
    else ([], [])
  (p.1 ++ [AudioQueueItem.sentinel],
   p.2 ++ (if recordingStoppedEmitted cfg reason then
      [AudioEvent.recording_stopped sid] else []))

/-- Claim C6: for a completed non-streaming recording, a buffer shorter than
200 ms is discarded (audio_discarded published, no chunk pushed); a VAD
recording that never saw speech is discarded; otherwise exactly one chunk
holding the entire buffer is pushed; and in every case the queue pushes end
with the sentinel. -/
theorem C6_non_streaming_disposition (cfg : AudioCfg) (sid : ℕ)
    (recording : List ℚ) (speech_detected : Bool) (reason : ExitReason)
    (hs : cfg.is_streaming = false) :
    (((recording.length : ℚ) / cfg.sample_rate) * 1000 < 200 →
      (recordAudioFinish cfg sid recording speech_detected reason).1 =
        [AudioQueueItem.sentinel] ∧
      AudioEvent.audio_discarded sid ∈
        (recordAudioFinish cfg sid recording speech_detected reason).2) ∧
    (cfg.use_vad = true → speech_detected = false →
      (recordAudioFinish cfg sid recording speech_detected reason).1 =
        [AudioQueueItem.sentinel] ∧
      AudioEvent.audio_discarded sid ∈
        (recordAudioFinish cfg sid recording speech_detected reason).2) ∧
    (¬ (cfg.use_vad = true ∧ speech_detected = false) →
      ((recording.length : ℚ) / cfg.sample_rate) * 1000 ≥ 200 →
      (recordAudioFinish cfg sid recording speech_detected reason).1 =
        [AudioQueueItem.chunk recording, AudioQueueItem.sentinel] ∧
      AudioEvent.audio_discarded sid ∉
        (recordAudioFinish cfg sid recording speech_detected reason).2) ∧
    ((recordAudioFinish cfg sid recording speech_detected reason).1.getLast? =
      some AudioQueueItem.sentinel) := by
  unfold recordAudioFinish processNonStreamingAudio
  rw [hs]
  simp only [Bool.not_false, if_true]
  refine ⟨?_, ?_, ?_, ?_⟩
  · intro hshort
    by_cases hv : (cfg.use_vad && !speech_detected) = true
    · rw [if_pos hv]
      exact ⟨rfl, List.mem_append_left _ (by simp)⟩
    · rw [if_neg hv, if_neg (not_le.mpr hshort)]
      exact ⟨rfl, List.mem_append_left _ (by simp)⟩
  · intro hv hsd
    rw [if_pos (by rw [hv, hsd]; rfl)]
    exact ⟨rfl, List.mem_append_left _ (by simp)⟩
  · intro hns hlong
    have hv : (cfg.use_vad && !speech_detected) = false := by
      cases hu : cfg.use_vad <;> cases hsd : speech_detected <;> simp_all
    rw [if_neg (by simp [hv]), if_pos hlong]
    refine ⟨rfl, ?_⟩
    split_ifs <;> simp
  · by_cases hv : (cfg.use_vad && !speech_detected) = true
    · rw [if_pos hv]
      simp
    · rw [if_neg hv]
      split_ifs <;> simp


/-- A 16 kHz non-VAD non-streaming configuration. -/
def c6cfg : AudioCfg :=
  { sample_rate := 16000, gain := 1, streaming_chunk_size := 4096,
    silence_frames := 30, use_vad := false, is_streaming := false }

/-- A 500 ms buffer at 16 kHz. -/
def c6samples : List ℚ := List.replicate 8000 0

/-- Witness for C6: a 16 kHz non-VAD recording of 8000 samples (500 ms) is
long enough, so exactly one chunk holding the buffer plus the sentinel is
pushed and nothing is discarded. -/
theorem C6_non_streaming_disposition_witness :
    c6cfg.is_streaming = false ∧
    (recordAudioFinish c6cfg 7 c6samples true ExitReason.manualStop).1 =
      [AudioQueueItem.chunk c6samples, AudioQueueItem.sentinel] ∧
    AudioEvent.audio_discarded 7 ∉
      (recordAudioFinish c6cfg 7 c6samples true ExitReason.manualStop).2 := by
  have h := (C6_non_streaming_disposition c6cfg 7 c6samples true
    ExitReason.manualStop rfl).2.2.1
  have hlen : ((c6samples.length : ℚ) / c6cfg.sample_rate) * 1000 ≥ 200 := by
    have hl : c6samples.length = 8000 := List.length_replicate 8000 0
    rw [hl]
    show ((8000 : ℚ) / ((16000 : ℕ) : ℚ)) * 1000 ≥ 200
    norm_num
  have hc := h (by simp [c6cfg]) hlen
  exact ⟨rfl, hc.1, hc.2⟩

/-! ### ApplicationController (src/application_controller.py, claim C1) -/

/-- One entry of ApplicationController.active_apps: app name (ℕ), its
recording mode, and its session state machine. -/
structure CApp where
  name : ℕ
  recording_mode : RecordingMode
  app : AppM
  deriving DecidableEq, Repr

/-- ApplicationController state: active apps, the session-id → app-name map,
the manually-stopped set, whether the audio engine is busy with a recording,
and the uuid4 generator modelled as a monotone counter (every id ever handed
out is below next_session_id). -/
structure Ctrl where
  apps : List CApp
  session_app_map : List (ℕ × ℕ)
  manually_stopped : List ℕ
  audio_recording : Bool
  next_session_id : ℕ
  deriving DecidableEq, Repr

/-- active_apps.get(app_name). -/
def findCApp (c : Ctrl) (name : ℕ) : Option CApp :=
  c.apps.find? fun x => x.name == name

/-- ApplicationController.start_recording: only when the app is idle and the
audio engine is not recording, generate a fresh session id, register it,
start the audio engine and the app, and discard the app from the
manually-stopped set; otherwise log busy and do nothing. -/
def ctrlStartRecording (c : Ctrl) (name : ℕ) : Ctrl :=
  match c.apps.find? (fun x => x.name == name) with
  | none => c
  | some a =>
    if a.app.state = AppState.IDLE ∧ c.audio_recording = false then
      { apps := c.apps.map fun x =>
          if x.name == name then
            { x with app := (appStartTranscription x.app c.next_session_id).1 }
          else x,
        session_app_map := (c.next_session_id, name) :: c.session_app_map,
        manually_stopped := c.manually_stopped.erase name,
        audio_recording := true,
        next_session_id := c.next_session_id + 1 }
    else c

/-- ApplicationController.handle_transcription_complete: resolve the session
to its app, drop the session from the map, and for a Continuous-mode app that
was not manually stopped start a new recording; otherwise discard the app
from the manually-stopped set. -/
def ctrlHandleTranscriptionComplete (c : Ctrl) (sid : ℕ) : Ctrl :=
  match c.session_app_map.lookup sid with
  | none => c
  | some name =>
    match c.apps.find? (fun x => x.name == name) with
    | none => c
    | some a =>
      let c1 := { c with
        session_app_map := c.session_app_map.filter fun p => !(p.1 == sid) }
      if a.recording_mode = RecordingMode.CONTINUOUS ∧
          name ∉ c1.manually_stopped then
        ctrlStartRecording c1 name
      else { c1 with manually_stopped := c1.manually_stopped.erase name }

/-- A Continuous-mode app sitting idle. -/
def c1app : CApp :=
  { name := 0, recording_mode := RecordingMode.CONTINUOUS, app := appInit }

/-- A controller whose audio engine is busy recording (e.g. for another app)
while c1app's session 5 completes inferencing. -/
def c1busy : Ctrl :=
  { apps := [c1app], session_app_map := [(5, 0)], manually_stopped := [],
    audio_recording := true, next_session_id := 6 }

/-- Claim C1 counterexample: the app is in Continuous mode and not manually
stopped, the orchestrator handles the completion of its session 5, yet no new
recording begins — the app stays Idle with no session — because
start_recording is skipped while the audio engine is busy. -/
theorem C1_no_restart_when_audio_busy :
    c1app.recording_mode = RecordingMode.CONTINUOUS ∧
    c1busy.manually_stopped = [] ∧
    (ctrlHandleTranscriptionComplete c1busy 5).apps = [c1app] ∧
    c1app.app.state = AppState.IDLE ∧
    c1app.app.current_session_id = none :=
  ⟨rfl, rfl, rfl, rfl, rfl⟩

lemma find_map_update (apps : List CApp) (name : ℕ) (f : CApp → CApp)
    (hf : ∀ x, (f x).name = x.name) (a : CApp)
    (h : apps.find? (fun x => x.name == name) = some a) :
    (apps.map fun x => if x.name == name then f x else x).find?
      (fun x => x.name == name) = some (f a) := by
  induction apps with
  | nil => simp at h
  | cons b bs ih =>
    by_cases hb : (b.name == name) = true
    · have hh : (b :: bs).find? (fun x => x.name == name) = some b :=
        List.find?_cons_of_pos bs hb
      rw [hh] at h
      injection h with h
      subst h
      simp only [List.map_cons, if_pos hb]
      exact List.find?_cons_of_pos _
        (show ((f b).name == name) = true by rw [hf]; exact hb)
    · have hh : (b :: bs).find? (fun x => x.name == name) =
          bs.find? (fun x => x.name == name) :=
        List.find?_cons_of_neg bs hb
      rw [hh] at h
      simp only [List.map_cons, if_neg hb]
      have hh2 : (b :: (bs.map fun x => if x.name == name then f x else x)).find?
            (fun x => x.name == name) =
          (bs.map fun x => if x.name == name then f x else x).find?
            (fun x => x.name == name) :=
        List.find?_cons_of_neg _ hb
      rw [hh2]
      exact ih h

/-- Claim C1 (amended): when the orchestrator handles the completion of a
session of a Continuous-mode app that is not manually stopped — provided the
app is idle and the audio engine is not currently recording — a new recording
begins: the app re-enters Recording with the freshly generated session id,
which differs from the completed session's id. -/
theorem C1_continuous_mode_restarts (c : Ctrl) (sid name : ℕ) (a : CApp)
    (hlk : c.session_app_map.lookup sid = some name)
    (hfind : c.apps.find? (fun x => x.name == name) = some a)
    (hmode : a.recording_mode = RecordingMode.CONTINUOUS)
    (hstop : name ∉ c.manually_stopped)
    (hidle : a.app.state = AppState.IDLE)
    (haudio : c.audio_recording = false)
    (hfresh : sid < c.next_session_id) :
    findCApp (ctrlHandleTranscriptionComplete c sid) name =
      some { a with app := { a.app with
        state := AppState.RECORDING,
        current_session_id := some c.next_session_id } } ∧
    c.next_session_id ≠ sid := by
  refine ⟨?_, by omega⟩
  unfold ctrlHandleTranscriptionComplete
  rw [hlk]
  dsimp only
  rw [hfind]
  dsimp only
  rw [if_pos ⟨hmode, hstop⟩]
  unfold ctrlStartRecording
  dsimp only
  rw [hfind]
  dsimp only
  rw [if_pos ⟨hidle, haudio⟩]
  unfold findCApp
  dsimp only
  exact find_map_update c.apps name
    (fun x => { x with app := (appStartTranscription x.app c.next_session_id).1 })
    (fun x => rfl) a hfind

/-- A controller just like c1busy but with the audio engine free. -/
def c1ready : Ctrl :=
  { apps := [c1app], session_app_map := [(5, 0)], manually_stopped := [],
    audio_recording := false, next_session_id := 6 }

/-- Witness for C1 (amended): completing session 5 of the idle Continuous app
restarts it with fresh session id 6 ≠ 5. -/
theorem C1_continuous_mode_restarts_witness :
    findCApp (ctrlHandleTranscriptionComplete c1ready 5) 0 =
      some { c1app with app := { c1app.app with
        state := AppState.RECORDING, current_session_id := some 6 } } ∧
    (6 : ℕ) ≠ 5 :=
  C1_continuous_mode_restarts c1ready 5 0 c1app rfl rfl rfl (by decide) rfl rfl
    (by decide)

end Chirp
